/-
Verification of the TSItemAllocationLibrary item-allocation engines.

Shallow embedding of the repository's core:
  * `AllocatableItem` (src/unnamed/part_000, src/unnamed/part_002): the shared
    item entity with silently-validating mutators;
  * `TSMT$DefaultItemStrategy.transform` (src/src/DefaultItemStrategy.ts);
  * `TSMT$ItemAllocation` (src/src/ItemAllocation.js, src/unnamed/part_002):
    the continuous (fractional) allocator;
  * `TSMT$Knapsack` (src/unnamed/part_001): the binary 0-1 allocator.

Modelling conventions:
  * JavaScript numbers are modelled by `ℚ`.  Out-of-range JavaScript inputs
    (null, NaN, ±Infinity, values coercing to NaN) are modelled by the
    dedicated `JSInput` type, so that the validating mutators can be
    translated literally.
  * The binary allocator requires, by its own documented contract
    ("item capacities, which must be non-negative and integral", part_001
    line 151), items with integral capacities; its item type therefore
    carries a `ℕ` capacity.
  * The dense 2-D value table produced by the external `TSMT$MatrixFactory`
    collaborator (`create rows cols 0.0`) is an all-zero table; the function
    `vtab` below gives cell `(i, c)` of the table after the fill loops of
    `allocate` ran: rows/columns the loops never write keep the fill value 0.
  * `Array.prototype.sort` with the rate comparator is modelled by the stable
    `List.insertionSort`; any stable sort yields the same list for a
    comparator derived from a total preorder, which the rate comparator is.
-/
import Mathlib

set_option maxRecDepth 4000

/-- A JavaScript value handed to one of the validating mutators.
`num q` is an ordinary finite number; `jsNull` is `null`; `nan` is `NaN`;
`posInf`/`negInf` are `±Infinity`; `nonNumeric` stands for any non-numeric
value whose numeric coercion is NaN (strings such as "abc", objects,
`undefined`). -/
inductive JSInput where
| jsNull : JSInput
| nan : JSInput
| posInf : JSInput
| negInf : JSInput
| num (q : ℚ) : JSInput
| nonNumeric : JSInput
deriving DecidableEq, Repr

namespace JSInput

/-- JavaScript `value !== null`. -/
def isNotNull : JSInput → Bool
| jsNull => false
| _ => true

/-- JavaScript global `isNaN(value)` (numeric coercion: `Number(null) = 0`,
non-numeric values coerce to NaN). -/
def jsIsNaN : JSInput → Bool
| nan => true
| nonNumeric => true
| _ => false

/-- JavaScript global `isFinite(value)` (numeric coercion). -/
def jsIsFinite : JSInput → Bool
| jsNull => true
| num _ => true
| _ => false

/-- JavaScript comparison `value >= 0` (`null` coerces to 0; comparisons
with NaN are false). -/
def geZero : JSInput → Bool
| jsNull => true
| posInf => true
| num q => decide (0 ≤ q)
| _ => false

/-- The rational carried by a finite numeric input (the only case in which a
guarded mutator ever stores the input). -/
def toQ : JSInput → ℚ
| num q => q
| _ => 0

end JSInput

/-- Guard `value !== null && !isNaN(value) && isFinite(value) && value >= 0`
used by the `capacity`, `payoff` and `solutionValue` mutators and by the
allocator `capacity` mutator. -/
def jsOkNonNeg (v : JSInput) : Bool :=
  v.isNotNull && !v.jsIsNaN && v.jsIsFinite && v.geZero

/-- Guard `value !== null && !isNaN(value) && isFinite(value)` used by the
risk and `solutionCapacity` mutators (any sign allowed). -/
def jsOkFinite (v : JSInput) : Bool :=
  v.isNotNull && !v.jsIsNaN && v.jsIsFinite

/-- `TSMT$AllocatableItem` (src/unnamed/part_000): capacity/payoff/risk
attributes, solver-written solution fields, free-form identifiers.  The
constructor initialises every numeric field to 0, `name` to `""` and `id`
to 0. -/
structure AllocatableItem where
  name : String := ""
  id : ℤ := 0
  capacity : ℚ := 0
  payoff : ℚ := 0
  solutionValue : ℚ := 0
  solutionCapacity : ℚ := 0
  capacityRisk : ℚ := 0
  payoffRisk : ℚ := 0
deriving DecidableEq, Repr

instance : Inhabited AllocatableItem := ⟨{}⟩

namespace AllocatableItem

/-- `set capacity(value)` (part_000 line 56): store if non-null, non-NaN,
finite and non-negative, otherwise keep the prior value. -/
def capacitySet (it : AllocatableItem) (v : JSInput) : AllocatableItem :=
  if jsOkNonNeg v then { it with capacity := v.toQ } else it

/-- `set payoff(value)` (part_000 line 78). -/
def payoffSet (it : AllocatableItem) (v : JSInput) : AllocatableItem :=
  if jsOkNonNeg v then { it with payoff := v.toQ } else it

/-- `set solutionValue(v)` (part_000 line 100): non-negative required. -/
def solutionValueSet (it : AllocatableItem) (v : JSInput) : AllocatableItem :=
  if jsOkNonNeg v then { it with solutionValue := v.toQ } else it

/-- `set solutionCapacity(value)` (part_000 line 122): any finite number. -/
def solutionCapacitySet (it : AllocatableItem) (v : JSInput) : AllocatableItem :=
  if jsOkFinite v then { it with solutionCapacity := v.toQ } else it

/-- `set capacityRisk(value)` (part_000 line 144): any finite number. -/
def capacityRiskSet (it : AllocatableItem) (v : JSInput) : AllocatableItem :=
  if jsOkFinite v then { it with capacityRisk := v.toQ } else it

/-- `set payoffRisk(value)` (part_000 line 166): any finite number. -/
def payoffRiskSet (it : AllocatableItem) (v : JSInput) : AllocatableItem :=
  if jsOkFinite v then { it with payoffRisk := v.toQ } else it

/-- `clone()` (part_000 line 176): copy capacity/payoff/risk only; solution
fields, `name` and `id` are left at their constructed defaults. -/
def clone (it : AllocatableItem) : AllocatableItem :=
  (((({} : AllocatableItem).capacitySet (.num it.capacity)).payoffSet
      (.num it.payoff)).capacityRiskSet (.num it.capacityRisk)).payoffRiskSet
    (.num it.payoffRisk)

end AllocatableItem

/-- The transient `{capacity, payoff, rate, value}` record produced by a
transform strategy (`TSMT$IAllocatableItemProps`). -/
structure ItemProps where
  capacity : ℚ
  payoff : ℚ
  rate : ℚ
  value : ℚ
deriving DecidableEq, Repr

/-- The `item` argument of `TSMT$DefaultItemStrategy.transform`, seen at the
JavaScript level: a genuine `TSMT$AllocatableItem` instance, `null`, or any
other (non-instance) value. -/
inductive TransformArg where
| item (it : AllocatableItem) : TransformArg
| jsNull : TransformArg
| other : TransformArg
deriving DecidableEq, Repr

/-- `TSMT$DefaultItemStrategy.transform(item, data)`
(src/src/DefaultItemStrategy.ts lines 47-52): when the argument is a
non-null `TSMT$AllocatableItem` instance, return
`{capacity, payoff, rate = payoff/capacity,
  value = (solutionCapacity/capacity)·payoff}`; otherwise the function falls
off its end and returns `undefined` (here `none`).  Division by a zero
capacity is the documented undefined-behaviour case; in this `ℚ` model
`x / 0 = 0`. -/
def defaultTransform (σ : Type) (a : TransformArg) (_data : Option σ) :
    Option ItemProps :=
  match a with
  | .item it =>
      some { capacity := it.capacity, payoff := it.payoff,
             rate := it.payoff / it.capacity,
             value := it.solutionCapacity / it.capacity * it.payoff }
  | _ => none

/-- A strategy, as the continuous allocator invokes it on elements of its item
collection: `transform(item, data)` producing an `ItemProps` record. -/
def StrategyFn (σ : Type) : Type :=
  AllocatableItem → Option σ → ItemProps

/-- The installed behaviour of a `TSMT$DefaultItemStrategy` instance on
genuine items (the `.item` case of `defaultTransform`). -/
def defaultItemStrategyFn (σ : Type) : StrategyFn σ := fun it _ =>
  { capacity := it.capacity, payoff := it.payoff,
    rate := it.payoff / it.capacity,
    value := it.solutionCapacity / it.capacity * it.payoff }

/-- A JavaScript value offered to `addStrategy`, as seen by the validity
check `value !== null && value.hasOwnProperty('transform')`
(src/src/ItemAllocation.js lines 263-265): whether it is `null`, whether
`transform` is an *own* property of the value, and the transform operation
the value exposes (own or inherited through its prototype chain), if any. -/
structure StrategyVal (σ : Type) where
  isNull : Bool
  hasOwnTransform : Bool
  transformFn : Option (StrategyFn σ)

/-- An instance of the compiled `TSMT$DefaultItemStrategy` class: its
`transform` method lives on `TSMT$DefaultItemStrategy.prototype`, so the
instance itself has no own `transform` property, yet it exposes the default
transform operation. -/
def defaultStrategyInstanceVal (σ : Type) : StrategyVal σ :=
  { isNull := false, hasOwnTransform := false,
    transformFn := some (defaultItemStrategyFn σ) }

/-- `TSMT$ItemAllocation` (src/src/ItemAllocation.js): the continuous
(fractional) allocator.  `σ` is the type of the opaque strategy data. -/
structure ItemAllocation (σ : Type) where
  strategy : Option (StrategyFn σ) := none
  data : Option σ := none
  items : List AllocatableItem := []
  capacity : ℚ := 0
  solutionCapacity : ℚ := 0
  solutionPayoff : ℚ := 0

namespace ItemAllocation

/-- `addStrategy(strategy)` (ItemAllocation.js lines 126-129): install the
value as the strategy only when `__isValidStrategy` holds, i.e. the value is
non-null and has `transform` as an *own* property. -/
def addStrategy {σ : Type} (st : ItemAllocation σ) (v : StrategyVal σ) :
    ItemAllocation σ :=
  if !v.isNull && v.hasOwnTransform then { st with strategy := v.transformFn }
  else st

/-- `set capacity(value)` (ItemAllocation.js lines 98-101): same silent
validation as the item mutators, non-negative required. -/
def capacitySet {σ : Type} (st : ItemAllocation σ) (v : JSInput) :
    ItemAllocation σ :=
  if jsOkNonNeg v then { st with capacity := v.toQ } else st

/-- The relation in which the rate comparator of `allocate`'s initial sort
keeps `a` before `b`: the comparator returns `-1` when `rate a > rate b`,
`1` when `rate a < rate b` and `0` otherwise, so a stable sort leaves `a`
before `b` exactly when `rate b ≤ rate a` (descending rates). -/
def rateLe {σ : Type} (strat : StrategyFn σ) (data : Option σ)
    (a b : AllocatableItem) : Prop :=
  (strat b data).rate ≤ (strat a data).rate

instance {σ : Type} (strat : StrategyFn σ) (data : Option σ) :
    DecidableRel (rateLe strat data) := fun a b =>
  inferInstanceAs (Decidable (_ ≤ _))

instance {σ : Type} (strat : StrategyFn σ) (data : Option σ) :
    IsTotal AllocatableItem (rateLe strat data) :=
  ⟨fun a b => le_total ((strat b data).rate) ((strat a data).rate)⟩

instance {σ : Type} (strat : StrategyFn σ) (data : Option σ) :
    IsTrans AllocatableItem (rateLe strat data) :=
  ⟨fun _ _ _ h1 h2 => le_trans h2 h1⟩

/-- The initial sort of `allocate` (ItemAllocation.js lines 201-212): the
item collection is sorted, stably, by descending transformed rate. -/
def rateSort {σ : Type} (strat : StrategyFn σ) (data : Option σ)
    (items : List AllocatableItem) : List AllocatableItem :=
  items.insertionSort (rateLe strat data)

/-- The greedy consumption loop of `allocate` (ItemAllocation.js lines
216-241), walking the sorted collection with running aggregates `sc`
(`this._solutionCapacity`) and `sp` (`this._solutionPayoff`).  Returns the
items of the walked list after their in-place solution-field updates, the
allocation pushed so far, and the final aggregates.  Mirrors the source:
breaking when slack is exhausted, consuming the whole item otherwise, and,
in the fractional branch, accumulating the payoff by reading the item's
`solutionValue` back after its validated assignment. -/
def greedy {σ : Type} (strat : StrategyFn σ) (data : Option σ) (cap : ℚ) :
    List AllocatableItem → ℚ → ℚ →
    List AllocatableItem × List AllocatableItem × ℚ × ℚ
  | [], sc, sp => ([], [], sc, sp)
  | it :: rest, sc, sp =>
      let slack := cap - sc
      if slack ≤ 0 then (it :: rest, [], sc, sp)
      else
        let p := strat it data
        if slack ≤ p.capacity then
          let it2 := (it.solutionCapacitySet (.num slack)).solutionValueSet
            (.num (p.rate * slack))
          (it2 :: rest, [it2], cap, sp + it2.solutionValue)
        else
          let it1 := (it.solutionCapacitySet (.num p.capacity)).solutionValueSet
            (.num p.payoff)
          let r := greedy strat data cap rest (sc + p.capacity) (sp + p.payoff)
          (it1 :: r.1, it1 :: r.2.1, r.2.2.1, r.2.2.2)

/-- `allocate()` (ItemAllocation.js lines 167-244).  Returns the allocator
after its state mutations together with the returned allocation array.
Faithful details: the default strategy is installed permanently when none is
set; the single-item branch assigns both aggregates; the general branch
resets `_solutionCapacity` to 0 but leaves `_solutionPayoff` at its prior
value before accumulating into it. -/
def allocate {σ : Type} (st : ItemAllocation σ) :
    ItemAllocation σ × List AllocatableItem :=
  if st.items.length = 0 then (st, [])
  else if st.capacity = 0 then (st, [])
  else
    let strat := st.strategy.getD (defaultItemStrategyFn σ)
    let st1 := { st with strategy := some strat }
    if st1.items.length = 1 then
      let it := st1.items.getD 0 default
      let p := strat it st1.data
      let f : ℚ := if p.capacity ≤ st1.capacity then 1 else st1.capacity / p.capacity
      let solCap := f * p.capacity
      let solPay := f * p.payoff
      let it2 := (it.solutionValueSet (.num solPay)).solutionCapacitySet
        (.num solCap)
      ({ st1 with items := st1.items.set 0 it2, solutionCapacity := solCap,
                  solutionPayoff := solPay }, [it2])
    else
      let sorted := rateSort strat st1.data st1.items
      let r := greedy strat st1.data st1.capacity sorted 0 st1.solutionPayoff
      ({ st1 with items := r.1, solutionCapacity := r.2.2.1,
                  solutionPayoff := r.2.2.2 }, r.2.1)

end ItemAllocation

/-- An item as consumed by the binary allocator `TSMT$Knapsack`.  The
allocator's documented contract (part_001 line 151: "No check is made on
item capacities, which must be non-negative and integral") makes the
capacity a natural number; the payoff and the solver-written solution
fields are general numbers. -/
structure KnapsackItem where
  capacity : ℕ := 0
  payoff : ℚ := 0
  solutionValue : ℚ := 0
  solutionCapacity : ℚ := 0
deriving DecidableEq, Repr

instance : Inhabited KnapsackItem := ⟨{}⟩

namespace KnapsackItem

/-- The item's validated `solutionCapacity` mutator, restricted to the finite
numbers the binary allocator assigns (any finite value is accepted). -/
def solutionCapacitySetQ (it : KnapsackItem) (v : ℚ) : KnapsackItem :=
  { it with solutionCapacity := v }

/-- The item's validated `solutionValue` mutator, restricted to finite
numbers: non-negative values are stored, negative ones silently rejected. -/
def solutionValueSetQ (it : KnapsackItem) (v : ℚ) : KnapsackItem :=
  if 0 ≤ v then { it with solutionValue := v } else it

end KnapsackItem

/-- `TSMT$Knapsack` (src/unnamed/part_001): the 0-1 binary allocator.
`capacity` is integral (the capacity mutator floors after validation). -/
structure Knapsack where
  items : List KnapsackItem := []
  capacity : ℕ := 0
  solutionCapacity : ℚ := 0
  solutionPayoff : ℚ := 0
deriving DecidableEq, Repr

/-- Cell `value[i][c]` of the DP table after the fill loops of
`TSMT$Knapsack.allocate` (part_001 lines 180-205).  The table is created as
an all-zero `(itemCount+1) × (capacity+1)` matrix; the loops fill rows
`1..itemCount` and columns `1..capacity` only, so row 0 and column 0 keep
the fill value 0.  Row `i+1` uses item `items[i]`; when the item fits in the
column's budget the cell is the include-vs-exclude maximum, otherwise the
prior row's value. -/
def vtab (items : List KnapsackItem) : ℕ → ℕ → ℚ
  | 0, _ => 0
  | i + 1, c =>
      if c = 0 then 0
      else
        let it := items.getD i default
        if it.capacity ≤ c then
          max (it.payoff + vtab items i (c - it.capacity)) (vtab items i c)
        else vtab items i c

/-- The backtracking loop of `TSMT$Knapsack.allocate` (part_001 lines
210-233), returning the zero-based positions (in the item collection) of
the items pushed onto the allocation, in push order.  State `(i, cap, cur)`
is the loop's `(i, capacity, curValue)`; the loop runs while `cur > 0` and
decrements the row each iteration, so the row count is the recursion
fuel.  `cap - w` is ℕ subtraction: in the source a negative column would
read `undefined` and end the loop, and a truncated column reads table
value 0 and ends the loop, with the same allocation returned. -/
def ktrack (items : List KnapsackItem) : ℕ → ℕ → ℚ → List ℕ
  | 0, _, _ => []
  | i + 1, cap, cur =>
      if cur ≤ 0 then []
      else if vtab items i cap = cur then ktrack items i cap (vtab items i cap)
      else
        i :: ktrack items i (cap - (items.getD i default).capacity)
          (vtab items i (cap - (items.getD i default).capacity))

/-- The number of iterations the backtracking loop executes from state
`(i, cap, cur)` (same recursion as `ktrack`). -/
def ktrackSteps (items : List KnapsackItem) : ℕ → ℕ → ℚ → ℕ
  | 0, _, _ => 0
  | i + 1, cap, cur =>
      if cur ≤ 0 then 0
      else if vtab items i cap = cur then
        ktrackSteps items i cap (vtab items i cap) + 1
      else
        ktrackSteps items i (cap - (items.getD i default).capacity)
          (vtab items i (cap - (items.getD i default).capacity)) + 1

/-- The `(row, column, curValue)` state in which the backtracking loop
stops (same recursion as `ktrack`). -/
def ktrackEnd (items : List KnapsackItem) : ℕ → ℕ → ℚ → ℕ × ℕ × ℚ
  | 0, cap, cur => (0, cap, cur)
  | i + 1, cap, cur =>
      if cur ≤ 0 then (i + 1, cap, cur)
      else if vtab items i cap = cur then ktrackEnd items i cap (vtab items i cap)
      else
        ktrackEnd items i (cap - (items.getD i default).capacity)
          (vtab items i (cap - (items.getD i default).capacity))

/-- The in-place solution-field writes the backtracking loop performs on the
selected items: each selected item gets `solutionCapacity`/`solutionValue`
set to its own capacity/payoff through the validated mutators. -/
def markAllocated (items : List KnapsackItem) (sel : List ℕ) :
    List KnapsackItem :=
  items.enum.map fun p =>
    if p.1 ∈ sel then
      (p.2.solutionCapacitySetQ (p.2.capacity : ℚ)).solutionValueSetQ p.2.payoff
    else p.2

/-- Total capacity of a list of binary-allocator items. -/
def capSum (l : List KnapsackItem) : ℕ := (l.map (·.capacity)).sum

/-- Total payoff of a list of binary-allocator items. -/
def paySum (l : List KnapsackItem) : ℚ := (l.map (·.payoff)).sum

namespace Knapsack

/-- `TSMT$Knapsack.allocate()` (part_001 lines 153-236).  Returns the
allocator after its state mutations together with the positions of the
returned items, in returned order (the source pushes the item references
`this._items[i-1]` themselves).  Faithful details: empty collection or zero
capacity return an empty allocation untouched; the single-item branch pushes
the item iff it fits, updating its solution fields but no aggregate; the
general branch stores the table corner in `_solutionPayoff`, backtracks, and
never writes `_solutionCapacity`. -/
def allocate (st : Knapsack) : Knapsack × List ℕ :=
  if st.items.length = 0 then (st, [])
  else if st.capacity = 0 then (st, [])
  else if st.items.length = 1 then
    let it := st.items.getD 0 default
    if it.capacity ≤ st.capacity then
      let it2 := (it.solutionCapacitySetQ (it.capacity : ℚ)).solutionValueSetQ
        it.payoff
      ({ st with items := st.items.set 0 it2 }, [0])
    else (st, [])
  else
    let n := st.items.length
    let payoff := vtab st.items n st.capacity
    let sel := ktrack st.items n st.capacity payoff
    ({ st with items := markAllocated st.items sel, solutionPayoff := payoff },
      sel)

end Knapsack

/-- The strategy a continuous allocator effectively uses on its next
`allocate()` call: the installed one, or the default strategy. -/
def effStrategy {σ : Type} (st : ItemAllocation σ) : StrategyFn σ :=
  st.strategy.getD (defaultItemStrategyFn σ)

/-- The attributes of an item that `allocate` never writes: identifiers,
capacity, payoff and the risk factors (only the solution fields are
solver-written). -/
def baseline (it : AllocatableItem) : String × ℤ × ℚ × ℚ × ℚ × ℚ :=
  (it.name, it.id, it.capacity, it.payoff, it.capacityRisk, it.payoffRisk)

/-- A mutator input that is a finite, non-negative number. -/
def validNonNeg (v : JSInput) : Prop := ∃ q, v = JSInput.num q ∧ 0 ≤ q

/-- A mutator input that is a finite number (any sign). -/
def validFinite (v : JSInput) : Prop := ∃ q, v = JSInput.num q

/-- Two-item binary instance with a zero-capacity item: capacities 0 and 3,
payoffs 5 and 10, environment capacity 3. -/
def zeroCapSack : Knapsack :=
  { items := [{ capacity := 0, payoff := 5 }, { capacity := 3, payoff := 10 }],
    capacity := 3 }

/-- The spec's binary example: items (5,10), (4,40), (6,30), (3,50) with
environment capacity 10. -/
def specSack : Knapsack :=
  { items := [{ capacity := 5, payoff := 10 }, { capacity := 4, payoff := 40 },
              { capacity := 6, payoff := 30 }, { capacity := 3, payoff := 50 }],
    capacity := 10 }

/-- The spec's two-item continuous instance: items (capacity 5, payoff 100)
and (capacity 8, payoff 150), environment capacity 8, no strategy set. -/
def contPair : ItemAllocation Unit :=
  { items := [{ name := "item1", capacity := 5, payoff := 100 },
              { name := "item2", capacity := 8, payoff := 150 }],
    capacity := 8 }

/-- The spec's single-item continuous instance: one item with capacity 5 and
payoff 100, environment capacity 2.5. -/
def singleItemEnv : ItemAllocation Unit :=
  { items := [{ name := "item1", capacity := 5, payoff := 100 }],
    capacity := 5 / 2 }

/-- The spec's reversed two-item continuous instance: the lower-rate item
(capacity 8, payoff 150, rate 18.75) inserted before the higher-rate one
(capacity 5, payoff 100, rate 20), environment capacity 8. -/
def contPairRev : ItemAllocation Unit :=
  { items := [{ name := "item1", capacity := 8, payoff := 150 },
              { name := "item2", capacity := 5, payoff := 100 }],
    capacity := 8 }

/-! ### Lemmas about the binary allocator's value table -/

/-- Column 0 of the value table keeps the fill value 0. -/
theorem vtab_zero_col (items : List KnapsackItem) (i : ℕ) :
    vtab items i 0 = 0 := by
  cases i <;> simp [vtab]

/-- One-step unfolding of the table recurrence. -/
theorem vtab_succ (items : List KnapsackItem) (i c : ℕ) :
    vtab items (i + 1) c =
      if c = 0 then 0
      else if (items.getD i default).capacity ≤ c then
        max ((items.getD i default).payoff +
          vtab items i (c - (items.getD i default).capacity)) (vtab items i c)
      else vtab items i c := by
  rw [vtab]

/-- Every table cell is non-negative: the recurrence always keeps the
prior row's value as one branch of the maximum, and row 0 is all zero. -/
theorem vtab_nonneg (items : List KnapsackItem) :
    ∀ i c, 0 ≤ vtab items i c := by
  intro i
  induction i with
  | zero => intro c; simp [vtab]
  | succ i ih =>
      intro c
      rw [vtab_succ]
      split
      · exact le_refl 0
      · split
        · exact le_trans (ih c) (le_max_right _ _)
        · exact ih c

/-- Each row of the table dominates the previous one. -/
theorem vtab_succ_ge (items : List KnapsackItem) (i c : ℕ) :
    vtab items i c ≤ vtab items (i + 1) c := by
  rw [vtab_succ]
  split
  · next hc => rw [hc, vtab_zero_col]
  · split
    · exact le_max_right _ _
    · exact le_refl _

/-- Upper-bound half of the DP correctness: when every item capacity is
positive, no feasible sub-collection of the first `i` items beats cell
`vtab items i c`. -/
theorem vtab_ge_sublist (items : List KnapsackItem)
    (hcap : ∀ it ∈ items, 1 ≤ it.capacity) :
    ∀ i, i ≤ items.length → ∀ c S, List.Sublist S (items.take i) → capSum S ≤ c →
      paySum S ≤ vtab items i c := by
  intro i
  induction i with
  | zero =>
      intro _ c S hS _
      rw [List.take_zero, List.sublist_nil] at hS
      subst hS
      simp [paySum, vtab]
  | succ i ih =>
      intro hi c S hS hcS
      have hilen : i < items.length := lt_of_lt_of_le (Nat.lt_succ_self i) hi
      rw [List.take_succ, List.getElem?_eq_getElem hilen] at hS
      rcases List.sublist_append_iff.mp hS with ⟨s₁, s₂, rfl, hs₁, hs₂⟩
      rcases List.sublist_singleton.mp hs₂ with rfl | rfl
      · rw [List.append_nil] at hcS ⊢
        exact le_trans (ih (le_of_lt hilen) c s₁ hs₁ hcS)
          (vtab_succ_ge items i c)
      · have hgd : items.getD i default = items[i] :=
          List.getD_eq_getElem _ _ hilen
        have hmem : items[i] ∈ items := List.getElem_mem hilen
        have hw1 : 1 ≤ items[i].capacity := hcap _ hmem
        have hsum : capSum s₁ + items[i].capacity ≤ c := by
          simpa [capSum] using hcS
        have hwc : items[i].capacity ≤ c :=
          le_trans (Nat.le_add_left _ _) hsum
        have hc0 : c ≠ 0 := by
          intro h
          rw [h] at hwc
          omega
        have hs₁c : capSum s₁ ≤ c - items[i].capacity :=
          Nat.le_sub_of_add_le hsum
        have hpays : paySum (s₁ ++ [items[i]]) = paySum s₁ + items[i].payoff := by
          simp [paySum]
        rw [hpays, vtab_succ, if_neg hc0, hgd, if_pos hwc]
        calc paySum s₁ + items[i].payoff
            ≤ vtab items i (c - items[i].capacity) + items[i].payoff :=
              add_le_add_right (ih (le_of_lt hilen) _ s₁ hs₁ hs₁c) _
          _ = items[i].payoff + vtab items i (c - items[i].capacity) :=
              add_comm _ _
          _ ≤ _ := le_max_left _ _

/-- The prefix `take i` is a sublist of the prefix `take (i+1)`. -/
theorem take_sublist_take_succ {α : Type _} (l : List α) (i : ℕ) :
    List.Sublist (l.take i) (l.take (i + 1)) := by
  have h : l.take i = (l.take (i + 1)).take i := by
    rw [List.take_take]
    congr 1
    omega
  rw [h]
  exact List.take_sublist _ _

/-- The default (constructor-fresh) binary item has capacity 0. -/
theorem default_knap_capacity : (default : KnapsackItem).capacity = 0 := rfl

/-- The default (constructor-fresh) binary item has payoff 0. -/
theorem default_knap_payoff : (default : KnapsackItem).payoff = 0 := rfl

/-- `paySum` of a cons. -/
theorem paySum_cons (a : KnapsackItem) (l : List KnapsackItem) :
    paySum (a :: l) = a.payoff + paySum l := by
  simp [paySum]

/-- `capSum` of a cons. -/
theorem capSum_cons (a : KnapsackItem) (l : List KnapsackItem) :
    capSum (a :: l) = a.capacity + capSum l := by
  simp [capSum]

/-- Full behaviour of the backtracking loop started at row `i ≤ itemCount`,
column `cap`, current value `vtab items i cap` (the loop's invariant state):
the recorded positions reproduce the cell's payoff exactly, consume at most
`cap` capacity, are bounded by the starting row, strictly decrease, map to a
(reversed) sub-collection of the first `i` items, and the loop runs at most
`i` iterations, stopping with `curValue = 0` after decrementing the row by
exactly one per iteration. -/
theorem ktrack_spec (items : List KnapsackItem) :
    ∀ i, i ≤ items.length → ∀ cap,
      paySum ((ktrack items i cap (vtab items i cap)).map
          (items.getD · default)) = vtab items i cap
      ∧ capSum ((ktrack items i cap (vtab items i cap)).map
          (items.getD · default)) ≤ cap
      ∧ (∀ j ∈ ktrack items i cap (vtab items i cap), j < i)
      ∧ List.Sorted (· > ·) (ktrack items i cap (vtab items i cap))
      ∧ List.Sublist ((ktrack items i cap (vtab items i cap)).map
          (items.getD · default)).reverse (items.take i)
      ∧ ktrackSteps items i cap (vtab items i cap) ≤ i
      ∧ (ktrackEnd items i cap (vtab items i cap)).2.2 = 0
      ∧ (ktrackEnd items i cap (vtab items i cap)).1 +
          ktrackSteps items i cap (vtab items i cap) = i := by
  intro i
  induction i with
  | zero =>
      intro _ cap
      refine ⟨?_, ?_, ?_, ?_, ?_, ?_, ?_, ?_⟩ <;>
        simp [ktrack, ktrackSteps, ktrackEnd, paySum, capSum, vtab]
  | succ i ih =>
      intro hi cap
      have hi' : i ≤ items.length := le_of_lt (lt_of_lt_of_le (Nat.lt_succ_self i) hi)
      by_cases hle : vtab items (i + 1) cap ≤ 0
      · have hzero : vtab items (i + 1) cap = 0 :=
          le_antisymm hle (vtab_nonneg items _ _)
        rw [ktrack, ktrackSteps, ktrackEnd, if_pos hle, if_pos hle, if_pos hle]
        refine ⟨?_, ?_, ?_, ?_, ?_, ?_, ?_, ?_⟩ <;>
          simp [paySum, capSum, hzero]
      · by_cases he : vtab items i cap = vtab items (i + 1) cap
        · rw [ktrack, ktrackSteps, ktrackEnd, if_neg hle, if_neg hle,
            if_neg hle, if_pos he, if_pos he, if_pos he]
          obtain ⟨h1, h2, h3, h4, h5, h6, h7, h8⟩ := ih hi' cap
          exact ⟨by rw [h1, he], h2,
            fun j hj => lt_trans (h3 j hj) (Nat.lt_succ_self i),
            h4, h5.trans (take_sublist_take_succ items i),
            Nat.succ_le_succ h6, h7, by omega⟩
        · -- the item at position i was selected
          have hc0 : cap ≠ 0 := by
            intro h
            rw [h, vtab_zero_col] at hle
            exact hle (le_refl 0)
          have hilen : i < items.length := by
            by_contra h
            have hd : items.getD i default = default :=
              List.getD_eq_default _ _ (le_of_not_lt h)
            have heq : vtab items (i + 1) cap = vtab items i cap := by
              rw [vtab_succ, if_neg hc0, hd, default_knap_capacity,
                default_knap_payoff]
              simp
            exact he heq.symm
          have hfit : (items.getD i default).capacity ≤ cap := by
            by_contra h
            have heq : vtab items (i + 1) cap = vtab items i cap := by
              rw [vtab_succ, if_neg hc0, if_neg h]
            exact he heq.symm
          have hv : vtab items (i + 1) cap =
              max ((items.getD i default).payoff +
                vtab items i (cap - (items.getD i default).capacity))
                (vtab items i cap) := by
            rw [vtab_succ, if_neg hc0, if_pos hfit]
          have hsel : vtab items (i + 1) cap =
              (items.getD i default).payoff +
                vtab items i (cap - (items.getD i default).capacity) := by
            rcases max_choice ((items.getD i default).payoff +
                vtab items i (cap - (items.getD i default).capacity))
                (vtab items i cap) with hm | hm
            · rw [hv, hm]
            · exact absurd (hv.trans hm).symm he
          rw [ktrack, ktrackSteps, ktrackEnd, if_neg hle, if_neg hle,
            if_neg hle, if_neg he, if_neg he, if_neg he]
          obtain ⟨h1, h2, h3, h4, h5, h6, h7, h8⟩ :=
            ih hi' (cap - (items.getD i default).capacity)
          refine ⟨?_, ?_, ?_, ?_, ?_, ?_, ?_, ?_⟩
          · rw [List.map_cons, paySum_cons, h1, hsel]
          · rw [List.map_cons, capSum_cons]
            calc (items.getD i default).capacity +
                capSum ((ktrack items i (cap - (items.getD i default).capacity)
                  (vtab items i (cap - (items.getD i default).capacity))).map
                  (items.getD · default))
                ≤ (items.getD i default).capacity +
                  (cap - (items.getD i default).capacity) :=
                  add_le_add_left h2 _
              _ = cap := Nat.add_sub_cancel' hfit
          · intro j hj
            rcases List.mem_cons.mp hj with rfl | hj
            · exact Nat.lt_succ_self _
            · exact lt_trans (h3 j hj) (Nat.lt_succ_self i)
          · exact List.sorted_cons.mpr ⟨fun b hb => h3 b hb, h4⟩
          · rw [List.map_cons, List.reverse_cons, List.take_succ,
              List.getElem?_eq_getElem hilen]
            refine List.Sublist.append h5 ?_
            rw [List.getD_eq_getElem _ _ hilen]
            simp
          · exact Nat.succ_le_succ h6
          · exact h7
          · omega

/-- `capSum` is additive over append. -/
theorem capSum_append (l₁ l₂ : List KnapsackItem) :
    capSum (l₁ ++ l₂) = capSum l₁ + capSum l₂ := by
  simp [capSum]

/-- With at least two items and positive capacity, `Knapsack.allocate` takes
its general (table-building) branch. -/
theorem knapsack_allocate_general (st : Knapsack)
    (h2 : 2 ≤ st.items.length) (hC : 1 ≤ st.capacity) :
    st.allocate =
      ({ st with
          items := markAllocated st.items (ktrack st.items st.items.length
            st.capacity (vtab st.items st.items.length st.capacity)),
          solutionPayoff := vtab st.items st.items.length st.capacity },
        ktrack st.items st.items.length st.capacity
          (vtab st.items st.items.length st.capacity)) := by
  unfold Knapsack.allocate
  rw [if_neg (by omega), if_neg (by omega), if_neg (by omega)]

/-! ### Claim theorems: the binary allocator -/

/-- C1 (amended): for every binary allocator holding at least two items whose
capacities are positive integers and whose payoffs are non-negative, with a
positive integral environment capacity, `allocate()` computes as the
allocator's payoff the maximum, over all sub-collections of the item
collection whose total capacity is at most the environment capacity, of the
sub-collection's total payoff, and the returned items (given by their
positions in the collection) form such a sub-collection attaining that
maximum. -/
theorem knapsack_allocate_optimal (st : Knapsack)
    (h2 : 2 ≤ st.items.length)
    (hcap : ∀ it ∈ st.items, 1 ≤ it.capacity)
    (hpay : ∀ it ∈ st.items, 0 ≤ it.payoff)
    (hC : 1 ≤ st.capacity) :
    (∀ S, List.Sublist S st.items → capSum S ≤ st.capacity →
      paySum S ≤ st.allocate.1.solutionPayoff)
    ∧ List.Sublist (st.allocate.2.map (st.items.getD · default)).reverse
        st.items
    ∧ capSum (st.allocate.2.map (st.items.getD · default)) ≤ st.capacity
    ∧ paySum (st.allocate.2.map (st.items.getD · default)) =
        st.allocate.1.solutionPayoff := by
  have halloc := knapsack_allocate_general st h2 hC
  obtain ⟨k1, k2, k3, k4, k5, k6, k7, k8⟩ :=
    ktrack_spec st.items st.items.length (le_refl _) st.capacity
  rw [List.take_length] at k5
  refine ⟨?_, ?_, ?_, ?_⟩
  · intro S hS hcS
    have hub := vtab_ge_sublist st.items hcap st.items.length (le_refl _)
      st.capacity S (by rw [List.take_length]; exact hS) hcS
    rw [halloc]
    exact hub
  · rw [halloc]
    exact k5
  · rw [halloc]
    exact k2
  · rw [halloc]
    exact k1

/-- C1 counterexample: with the claim's hypotheses as stated (capacities
only *non-negative*), the computed payoff is not the feasible-subset
maximum.  On items (capacity 0, payoff 5) and (capacity 3, payoff 10) with
environment capacity 3, the whole collection is feasible with payoff 15,
but `allocate()` computes payoff 10: the zero-capacity item is invisible to
column 0 of the table, which the fill loops never write. -/
theorem knapsack_zero_capacity_suboptimal :
    2 ≤ zeroCapSack.items.length
    ∧ (∀ it ∈ zeroCapSack.items, 0 ≤ it.payoff)
    ∧ 1 ≤ zeroCapSack.capacity
    ∧ capSum zeroCapSack.items ≤ zeroCapSack.capacity
    ∧ paySum zeroCapSack.items = 15
    ∧ zeroCapSack.allocate.1.solutionPayoff = 10
    ∧ ¬ (∀ S, List.Sublist S zeroCapSack.items →
        capSum S ≤ zeroCapSack.capacity →
        paySum S ≤ zeroCapSack.allocate.1.solutionPayoff) := by
  have hpay : zeroCapSack.allocate.1.solutionPayoff = 10 := by
    norm_num [zeroCapSack, Knapsack.allocate, vtab, ktrack, markAllocated,
      max_def]
  refine ⟨by norm_num [zeroCapSack], by norm_num [zeroCapSack],
    by norm_num [zeroCapSack], by norm_num [zeroCapSack, capSum],
    by norm_num [zeroCapSack, paySum], hpay, ?_⟩
  intro h
  have hc := h zeroCapSack.items (List.Sublist.refl _)
    (by norm_num [zeroCapSack, capSum])
  rw [hpay] at hc
  norm_num [zeroCapSack, paySum] at hc

/-- C1 witness: the spec's four-item example (5,10), (4,40), (6,30), (3,50)
with capacity 10 satisfies the amended hypotheses, the optimality theorem
applies, and the computed payoff is 90. -/
theorem knapsack_allocate_optimal_witness :
    (2 ≤ specSack.items.length
      ∧ (∀ it ∈ specSack.items, 1 ≤ it.capacity)
      ∧ (∀ it ∈ specSack.items, 0 ≤ it.payoff)
      ∧ 1 ≤ specSack.capacity)
    ∧ ((∀ S, List.Sublist S specSack.items → capSum S ≤ specSack.capacity →
          paySum S ≤ specSack.allocate.1.solutionPayoff)
      ∧ List.Sublist (specSack.allocate.2.map
          (specSack.items.getD · default)).reverse specSack.items
      ∧ capSum (specSack.allocate.2.map (specSack.items.getD · default)) ≤
          specSack.capacity
      ∧ paySum (specSack.allocate.2.map (specSack.items.getD · default)) =
          specSack.allocate.1.solutionPayoff)
    ∧ specSack.allocate.1.solutionPayoff = 90 := by
  refine ⟨⟨by norm_num [specSack], by norm_num [specSack],
    by norm_num [specSack], by norm_num [specSack]⟩, ?_,
    by norm_num [specSack, Knapsack.allocate, vtab, ktrack, markAllocated,
      max_def]⟩
  exact knapsack_allocate_optimal specSack (by norm_num [specSack])
    (by norm_num [specSack]) (by norm_num [specSack])
    (by norm_num [specSack])

/-- C3 (code bug): on the spec's four-item example, `allocate()` returns a
non-empty selection whose total consumed capacity is 7, yet the allocator's
`solutionCapacity` accessor still reads the cleared value 0: no branch of
`TSMT$Knapsack.allocate` ever writes `_solutionCapacity`, contradicting the
accessor's own documentation ("total capacity consumed for all the items in
the optimal allocation"). -/
theorem knapsack_solutionCapacity_never_written :
    specSack.allocate.2 ≠ []
    ∧ capSum (specSack.allocate.2.map (specSack.items.getD · default)) = 7
    ∧ specSack.allocate.1.solutionCapacity = 0
    ∧ specSack.allocate.1.solutionCapacity ≠
        ((capSum (specSack.allocate.2.map (specSack.items.getD · default)) : ℕ) : ℚ) := by
  have hsel : specSack.allocate.2 = [3, 1] := by
    norm_num [specSack, Knapsack.allocate, vtab, ktrack, max_def]
  refine ⟨by rw [hsel]; simp, ?_, ?_, ?_⟩ <;>
    norm_num [specSack, Knapsack.allocate, vtab, ktrack, markAllocated,
      capSum, max_def]

/-- C6: for every binary allocator with at least two items and positive
integral capacity (item capacities are non-negative integers by type), the
positions of the items returned by `allocate()` are strictly decreasing
along the returned sequence: backtracking records them last-selected
first. -/
theorem knapsack_allocation_reverse_order (st : Knapsack)
    (h2 : 2 ≤ st.items.length) (hC : 1 ≤ st.capacity) :
    List.Sorted (· > ·) st.allocate.2 := by
  rw [knapsack_allocate_general st h2 hC]
  exact (ktrack_spec st.items st.items.length (le_refl _) st.capacity).2.2.2.1

/-- C6 witness: on the spec's four-item example the returned positions are
[3, 1] (the items with payoffs 50 and 40), strictly decreasing. -/
theorem knapsack_allocation_reverse_order_witness :
    (2 ≤ specSack.items.length ∧ 1 ≤ specSack.capacity)
    ∧ List.Sorted (· > ·) specSack.allocate.2
    ∧ specSack.allocate.2 = [3, 1] := by
  refine ⟨⟨by norm_num [specSack], by norm_num [specSack]⟩,
    knapsack_allocation_reverse_order specSack (by norm_num [specSack])
      (by norm_num [specSack]), ?_⟩
  norm_num [specSack, Knapsack.allocate, vtab, ktrack, max_def]

/-- C8: for every binary allocator item collection with non-negative
payoffs (capacities are non-negative integers by type) and any non-negative
integral environment capacity, the backtracking loop started at the final
table cell terminates: it runs at most `itemCount` iterations, stops with
`curValue = 0`, decrements the row by exactly one per iteration (final row
plus iteration count equals the starting row), and the column index never
becomes negative — the capacity consumed by every prefix of the selection
stays within the starting column. -/
theorem knapsack_backtrack_terminates (items : List KnapsackItem) (C : ℕ)
    (hpay : ∀ it ∈ items, 0 ≤ it.payoff) :
    ktrackSteps items items.length C (vtab items items.length C) ≤
      items.length
    ∧ (ktrackEnd items items.length C (vtab items items.length C)).2.2 = 0
    ∧ (ktrackEnd items items.length C (vtab items items.length C)).1 +
        ktrackSteps items items.length C (vtab items items.length C) =
        items.length
    ∧ ∀ k, capSum (((ktrack items items.length C
        (vtab items items.length C)).take k).map (items.getD · default)) ≤ C := by
  obtain ⟨k1, k2, k3, k4, k5, k6, k7, k8⟩ :=
    ktrack_spec items items.length (le_refl _) C
  refine ⟨k6, k7, k8, ?_⟩
  intro k
  set sel := ktrack items items.length C (vtab items items.length C) with hsel
  calc capSum ((sel.take k).map (items.getD · default))
      ≤ capSum ((sel.take k).map (items.getD · default)) +
        capSum ((sel.drop k).map (items.getD · default)) :=
        Nat.le_add_right _ _
    _ = capSum ((sel.take k ++ sel.drop k).map (items.getD · default)) := by
        rw [List.map_append, capSum_append]
    _ = capSum (sel.map (items.getD · default)) := by
        rw [List.take_append_drop]
    _ ≤ C := k2

/-- C8 witness: the backtracking run of the spec's four-item example stops
with value 0 within 4 iterations. -/
theorem knapsack_backtrack_terminates_witness :
    (∀ it ∈ specSack.items, 0 ≤ it.payoff)
    ∧ (ktrackSteps specSack.items specSack.items.length specSack.capacity
        (vtab specSack.items specSack.items.length specSack.capacity) ≤
        specSack.items.length
      ∧ (ktrackEnd specSack.items specSack.items.length specSack.capacity
          (vtab specSack.items specSack.items.length specSack.capacity)).2.2 = 0
      ∧ (ktrackEnd specSack.items specSack.items.length specSack.capacity
          (vtab specSack.items specSack.items.length specSack.capacity)).1 +
          ktrackSteps specSack.items specSack.items.length specSack.capacity
          (vtab specSack.items specSack.items.length specSack.capacity) =
          specSack.items.length
      ∧ ∀ k, capSum (((ktrack specSack.items specSack.items.length
          specSack.capacity (vtab specSack.items specSack.items.length
          specSack.capacity)).take k).map (specSack.items.getD · default)) ≤
          specSack.capacity) := by
  exact ⟨by norm_num [specSack],
    knapsack_backtrack_terminates specSack.items specSack.capacity
      (by norm_num [specSack])⟩

/-! ### Lemmas about the validating mutators and the continuous allocator -/

/-- The non-negative mutator guard accepts exactly the finite non-negative
numeric inputs. -/
theorem jsOkNonNeg_iff (v : JSInput) : jsOkNonNeg v = true ↔ validNonNeg v := by
  cases v <;>
    simp [jsOkNonNeg, JSInput.isNotNull, JSInput.jsIsNaN, JSInput.jsIsFinite,
      JSInput.geZero, validNonNeg]

/-- The finite mutator guard accepts exactly the finite numeric inputs. -/
theorem jsOkFinite_iff (v : JSInput) : jsOkFinite v = true ↔ validFinite v := by
  cases v <;>
    simp [jsOkFinite, JSInput.isNotNull, JSInput.jsIsNaN, JSInput.jsIsFinite,
      validFinite]

/-- Writing `solutionValue` never changes the baseline attributes. -/
theorem baseline_solutionValueSet (it : AllocatableItem) (v : JSInput) :
    baseline (it.solutionValueSet v) = baseline it := by
  unfold AllocatableItem.solutionValueSet
  split <;> rfl

/-- Writing `solutionCapacity` never changes the baseline attributes. -/
theorem baseline_solutionCapacitySet (it : AllocatableItem) (v : JSInput) :
    baseline (it.solutionCapacitySet v) = baseline it := by
  unfold AllocatableItem.solutionCapacitySet
  split <;> rfl

/-- The greedy loop's in-place solution-field updates preserve each walked
item's baseline attributes positionally. -/
theorem greedy_items_baseline (σ : Type) (strat : StrategyFn σ)
    (data : Option σ) (cap : ℚ) :
    ∀ (l : List AllocatableItem) (sc sp : ℚ),
      ((ItemAllocation.greedy strat data cap l sc sp).1).map baseline =
        l.map baseline := by
  intro l
  induction l with
  | nil => intro sc sp; rfl
  | cons it rest ih =>
      intro sc sp
      rw [ItemAllocation.greedy]
      by_cases h1 : cap - sc ≤ 0
      · simp only [if_pos h1]
      · simp only [if_neg h1]
        by_cases h2 : cap - sc ≤ (strat it data).capacity
        · simp only [if_pos h2, List.map_cons, baseline_solutionValueSet,
            baseline_solutionCapacitySet]
        · simp only [if_neg h2, List.map_cons, baseline_solutionValueSet,
            baseline_solutionCapacitySet, ih]

/-- With at least two items and non-zero capacity,
`ItemAllocation.allocate` takes its general (sort-and-walk) branch. -/
theorem itemAllocation_allocate_general (σ : Type) (st : ItemAllocation σ)
    (h2 : 2 ≤ st.items.length) (hc : st.capacity ≠ 0) :
    st.allocate =
      ({ st with
          strategy := some (effStrategy st)
          items := (ItemAllocation.greedy (effStrategy st) st.data st.capacity
            (ItemAllocation.rateSort (effStrategy st) st.data st.items) 0
            st.solutionPayoff).1
          solutionCapacity := (ItemAllocation.greedy (effStrategy st) st.data
            st.capacity (ItemAllocation.rateSort (effStrategy st) st.data
            st.items) 0 st.solutionPayoff).2.2.1
          solutionPayoff := (ItemAllocation.greedy (effStrategy st) st.data
            st.capacity (ItemAllocation.rateSort (effStrategy st) st.data
            st.items) 0 st.solutionPayoff).2.2.2 },
        (ItemAllocation.greedy (effStrategy st) st.data st.capacity
          (ItemAllocation.rateSort (effStrategy st) st.data st.items) 0
          st.solutionPayoff).2.1) := by
  have h0 : ¬(st.items.length = 0) := by omega
  have h1 : ¬(st.items.length = 1) := by omega
  unfold ItemAllocation.allocate
  rw [if_neg h0, if_neg hc]
  dsimp only
  rw [if_neg h1]
  rfl

/-! ### Claim theorems: the continuous allocator -/

/-- C2 (code bug): calling `allocate()` twice on the spec's two-item example
with no intervening mutation returns the same sequence and the same
per-item solution fields, and the same `solutionCapacity` aggregate — but
the payoff aggregate differs (156.25 after the first call, 312.5 after the
second): the general branch resets `_solutionCapacity` to 0 before its walk
yet never resets `_solutionPayoff`, so every further call accumulates onto
the previous total. -/
theorem itemAllocation_allocate_not_idempotent :
    contPair.allocate.1.solutionPayoff = 625 / 4
    ∧ (contPair.allocate.1).allocate.1.solutionPayoff = 625 / 2
    ∧ (contPair.allocate.1).allocate.1.solutionPayoff ≠
        contPair.allocate.1.solutionPayoff
    ∧ (contPair.allocate.1).allocate.2 = contPair.allocate.2
    ∧ (contPair.allocate.1).allocate.1.items.map
          (fun i => (i.solutionCapacity, i.solutionValue)) =
        contPair.allocate.1.items.map
          (fun i => (i.solutionCapacity, i.solutionValue))
    ∧ (contPair.allocate.1).allocate.1.solutionCapacity =
        contPair.allocate.1.solutionCapacity := by
  refine ⟨?_, ?_, ?_, ?_, ?_, ?_⟩ <;>
    norm_num [contPair, ItemAllocation.allocate, ItemAllocation.rateSort,
      ItemAllocation.greedy, ItemAllocation.rateLe, defaultItemStrategyFn,
      AllocatableItem.solutionValueSet, AllocatableItem.solutionCapacitySet,
      jsOkNonNeg, jsOkFinite, JSInput.isNotNull, JSInput.jsIsNaN,
      JSInput.jsIsFinite, JSInput.geZero, JSInput.toQ,
      List.insertionSort, List.orderedInsert]

/-- C4 (code bug): an instance of the default strategy class exposes a
transform operation (through its class prototype) and is not null, yet
`addStrategy` leaves every allocator unchanged when given it: the guard
`value.hasOwnProperty('transform')` is false for a method inherited from
the prototype, so the strategy is never installed. -/
theorem addStrategy_rejects_prototype_transform :
    (defaultStrategyInstanceVal Unit).isNull = false
    ∧ ((defaultStrategyInstanceVal Unit).transformFn).isSome = true
    ∧ (defaultStrategyInstanceVal Unit).hasOwnTransform = false
    ∧ ∀ st : ItemAllocation Unit,
        st.addStrategy (defaultStrategyInstanceVal Unit) = st :=
  ⟨rfl, rfl, rfl, fun _ => rfl⟩

/-- C5: a continuous allocator holding exactly one item, with positive
capacity and the default strategy (installed or about to be defaulted),
computes `f = 1` when the item's transformed capacity fits and
`f = capacity / transformedCapacity` otherwise, writes
`solutionCapacity = f·capacity` and `solutionValue = f·payoff` onto the
item, stores the same two values as the allocator aggregates, and returns
that one item. -/
theorem itemAllocation_single_item (σ : Type) (st : ItemAllocation σ)
    (it : AllocatableItem) (f : ℚ)
    (hitems : st.items = [it])
    (hcap : 0 < st.capacity)
    (hstrat : st.strategy = none ∨ st.strategy = some (defaultItemStrategyFn σ))
    (hc : 0 ≤ it.capacity) (hp : 0 ≤ it.payoff)
    (hf : f = if it.capacity ≤ st.capacity then 1 else st.capacity / it.capacity) :
    st.allocate =
      ({ st with
          strategy := some (defaultItemStrategyFn σ)
          items := [{ it with
                      solutionValue := f * it.payoff
                      solutionCapacity := f * it.capacity }]
          solutionCapacity := f * it.capacity
          solutionPayoff := f * it.payoff },
        [{ it with
            solutionValue := f * it.payoff
            solutionCapacity := f * it.capacity }]) := by
  have hf0 : 0 ≤ f := by
    rw [hf]
    split
    · norm_num
    · exact div_nonneg (le_of_lt hcap) hc
  have hfp : 0 ≤ f * it.payoff := mul_nonneg hf0 hp
  have hstrat' : st.strategy.getD (defaultItemStrategyFn σ) =
      defaultItemStrategyFn σ := by
    rcases hstrat with h | h <;> rw [h] <;> rfl
  unfold ItemAllocation.allocate
  rw [if_neg (by rw [hitems]; simp), if_neg (ne_of_gt hcap),
    if_pos (by rw [hitems]; rfl)]
  simp only [hstrat', hitems, List.getD_cons_zero, defaultItemStrategyFn,
    AllocatableItem.solutionValueSet, AllocatableItem.solutionCapacitySet,
    jsOkNonNeg, jsOkFinite, JSInput.isNotNull, JSInput.jsIsNaN,
    JSInput.jsIsFinite, JSInput.geZero, JSInput.toQ, List.set]
  rw [← hf]
  simp [hfp, Prod.ext_iff]

/-- C5 witness: one item with capacity 5 and payoff 100 against environment
capacity 2.5 yields item and allocator `solutionCapacity = 2.5` and
`solutionValue`/payoff 50, and the item is returned. -/
theorem itemAllocation_single_item_witness :
    (singleItemEnv.items = [{ name := "item1", capacity := 5, payoff := 100 }]
      ∧ 0 < singleItemEnv.capacity
      ∧ singleItemEnv.strategy = none)
    ∧ singleItemEnv.allocate.1.solutionPayoff = 50
    ∧ singleItemEnv.allocate.1.solutionCapacity = 5 / 2
    ∧ singleItemEnv.allocate.2.map
        (fun i => (i.solutionCapacity, i.solutionValue)) = [(5 / 2, 50)] := by
  have h := itemAllocation_single_item Unit singleItemEnv
    { name := "item1", capacity := 5, payoff := 100 } ((5 : ℚ) / 2 / 5)
    rfl (by norm_num [singleItemEnv]) (Or.inl rfl) (by norm_num)
    (by norm_num) (by norm_num [singleItemEnv])
  refine ⟨⟨rfl, by norm_num [singleItemEnv], rfl⟩, ?_, ?_, ?_⟩ <;>
    rw [h] <;> norm_num

/-- C7: each validating mutator (item capacity, payoff, solutionValue,
capacityRisk, payoffRisk, solutionCapacity; continuous-allocator capacity)
stores a finite numeric input that satisfies its sign constraint, changing
no other attribute, and is a no-op on every other input (null, NaN,
±Infinity, non-numeric, or negative where non-negativity is required); as
total functions the mutators never raise. -/
theorem mutators_validate_silently (σ : Type) (it : AllocatableItem)
    (st : ItemAllocation σ) (v : JSInput) :
    (validNonNeg v → it.capacitySet v = { it with capacity := v.toQ })
    ∧ (¬ validNonNeg v → it.capacitySet v = it)
    ∧ (validNonNeg v → it.payoffSet v = { it with payoff := v.toQ })
    ∧ (¬ validNonNeg v → it.payoffSet v = it)
    ∧ (validNonNeg v → it.solutionValueSet v = { it with solutionValue := v.toQ })
    ∧ (¬ validNonNeg v → it.solutionValueSet v = it)
    ∧ (validFinite v → it.solutionCapacitySet v =
        { it with solutionCapacity := v.toQ })
    ∧ (¬ validFinite v → it.solutionCapacitySet v = it)
    ∧ (validFinite v → it.capacityRiskSet v = { it with capacityRisk := v.toQ })
    ∧ (¬ validFinite v → it.capacityRiskSet v = it)
    ∧ (validFinite v → it.payoffRiskSet v = { it with payoffRisk := v.toQ })
    ∧ (¬ validFinite v → it.payoffRiskSet v = it)
    ∧ (validNonNeg v → st.capacitySet v = { st with capacity := v.toQ })
    ∧ (¬ validNonNeg v → st.capacitySet v = st) := by
  refine ⟨?_, ?_, ?_, ?_, ?_, ?_, ?_, ?_, ?_, ?_, ?_, ?_, ?_, ?_⟩ <;>
    (intro h
     simp only [AllocatableItem.capacitySet, AllocatableItem.payoffSet,
       AllocatableItem.solutionValueSet, AllocatableItem.solutionCapacitySet,
       AllocatableItem.capacityRiskSet, AllocatableItem.payoffRiskSet,
       ItemAllocation.capacitySet]
     first
       | rw [if_pos ((jsOkNonNeg_iff v).mpr h)]
       | rw [if_neg (fun hb => h ((jsOkNonNeg_iff v).mp hb))]
       | rw [if_pos ((jsOkFinite_iff v).mpr h)]
       | rw [if_neg (fun hb => h ((jsOkFinite_iff v).mp hb))])

/-- C7 witness: the value 5 is stored by the capacity mutator of a fresh
item, and NaN leaves the item untouched. -/
theorem mutators_validate_silently_witness :
    (AllocatableItem.capacitySet {} (JSInput.num 5)).capacity = 5
    ∧ AllocatableItem.capacitySet {} JSInput.nan = {} := by
  constructor
  · have h := (mutators_validate_silently Unit {} ({} : ItemAllocation Unit)
      (JSInput.num 5)).1 ⟨5, rfl, by norm_num⟩
    rw [h]
    rfl
  · exact (mutators_validate_silently Unit {} ({} : ItemAllocation Unit)
      JSInput.nan).2.1 (by simp [validNonNeg])

/-- C9: with at least two items and positive capacity, `allocate()`
permanently replaces the allocator's item collection by its stable sort in
descending transformed-rate order (the walked items' solution-field updates
aside): position by position the new collection carries the baseline
attributes of the sorted collection, membership (as a multiset of baseline
attributes) and item count are preserved, and the sorted collection is
ordered by the rate relation.  The post-state's collection is the one every
subsequent operation — `removeItem`'s first-match scan, later `allocate()`
calls — reads. -/
theorem itemAllocation_allocate_reorders (σ : Type) (st : ItemAllocation σ)
    (h2 : 2 ≤ st.items.length) (hcap : 0 < st.capacity) :
    st.allocate.1.items.map baseline =
      (ItemAllocation.rateSort (effStrategy st) st.data st.items).map baseline
    ∧ (st.allocate.1.items.map baseline).Perm (st.items.map baseline)
    ∧ st.allocate.1.items.length = st.items.length
    ∧ List.Sorted (ItemAllocation.rateLe (effStrategy st) st.data)
        (ItemAllocation.rateSort (effStrategy st) st.data st.items) := by
  have hgen := itemAllocation_allocate_general σ st h2 (ne_of_gt hcap)
  have hperm : (ItemAllocation.rateSort (effStrategy st) st.data
      st.items).Perm st.items := List.perm_insertionSort _ _
  have h1 : st.allocate.1.items.map baseline =
      (ItemAllocation.rateSort (effStrategy st) st.data st.items).map
        baseline := by
    rw [hgen]
    exact greedy_items_baseline σ (effStrategy st) st.data st.capacity _ 0
      st.solutionPayoff
  refine ⟨h1, ?_, ?_, List.sorted_insertionSort _ _⟩
  · rw [h1]
    exact hperm.map baseline
  · have hlen := congrArg List.length h1
    simp only [List.length_map] at hlen
    rw [hlen]
    exact hperm.length_eq

/-- C9 witness: on the reversed two-item example (rates 18.75 then 20) the
theorem applies, and the post-`allocate` collection is reordered to
["item2", "item1"] — the order a subsequent scan observes. -/
theorem itemAllocation_allocate_reorders_witness :
    (2 ≤ contPairRev.items.length ∧ 0 < contPairRev.capacity)
    ∧ (contPairRev.allocate.1.items.map baseline =
        (ItemAllocation.rateSort (effStrategy contPairRev) contPairRev.data
          contPairRev.items).map baseline
      ∧ (contPairRev.allocate.1.items.map baseline).Perm
          (contPairRev.items.map baseline)
      ∧ contPairRev.allocate.1.items.length = contPairRev.items.length
      ∧ List.Sorted (ItemAllocation.rateLe (effStrategy contPairRev)
          contPairRev.data)
          (ItemAllocation.rateSort (effStrategy contPairRev) contPairRev.data
            contPairRev.items))
    ∧ contPairRev.allocate.1.items.map (fun i => i.name) =
        ["item2", "item1"]
    ∧ contPairRev.items.map (fun i => i.name) = ["item1", "item2"] := by
  refine ⟨⟨by norm_num [contPairRev], by norm_num [contPairRev]⟩,
    itemAllocation_allocate_reorders Unit contPairRev
      (by norm_num [contPairRev]) (by norm_num [contPairRev]), ?_, by rfl⟩
  norm_num [contPairRev, ItemAllocation.allocate, ItemAllocation.rateSort,
    ItemAllocation.greedy, ItemAllocation.rateLe, defaultItemStrategyFn,
    AllocatableItem.solutionValueSet, AllocatableItem.solutionCapacitySet,
    jsOkNonNeg, jsOkFinite, JSInput.isNotNull, JSInput.jsIsNaN,
    JSInput.jsIsFinite, JSInput.geZero, JSInput.toQ,
    List.insertionSort, List.orderedInsert]

/-- C10: the default strategy's transform returns a
`{capacity, payoff, rate, value}` record exactly when its argument is a
non-null `AllocatableItem` instance — carrying the item's own capacity and
payoff, the payoff-per-capacity rate and the linear solution value — and
returns no record (undefined) for null or any non-instance argument; being
a function only of the item's readable attributes, it mutates nothing in
either case. -/
theorem defaultTransform_record_iff_item (σ : Type) :
    (∀ (it : AllocatableItem) (d : Option σ),
      defaultTransform σ (TransformArg.item it) d =
        some { capacity := it.capacity, payoff := it.payoff,
               rate := it.payoff / it.capacity,
               value := it.solutionCapacity / it.capacity * it.payoff })
    ∧ (∀ d : Option σ, defaultTransform σ TransformArg.jsNull d = none)
    ∧ (∀ d : Option σ, defaultTransform σ TransformArg.other d = none)
    ∧ ∀ (a : TransformArg) (d : Option σ),
        (defaultTransform σ a d).isSome = true ↔
          ∃ it, a = TransformArg.item it := by
  refine ⟨fun it d => rfl, fun d => rfl, fun d => rfl, ?_⟩
  intro a d
  cases a <;> simp [defaultTransform]
